import Mathlib

/-!
Verification of the order engine of the FullStackTest e-commerce backend.

The definitions below are a shallow embedding of the Go order handlers
(pkg/handlers: CreateOrder, UpdateOrderStatus, CancelOrder,
isValidStatusTransition; pkg/handlers UpdateProduct) and of the GORM data
model (pkg/models/order.go, pkg/models/product.go).

Modelling conventions:
* The relational store is a pure value of type DB (lists of products and
  orders plus the auto-increment counter for order ids).  Each handler is a
  pure function DB → inputs → DB × HttpResp; a GORM transaction that is
  rolled back is modelled by returning the original DB unchanged, and a
  committed transaction by returning the mutated DB.
* Monetary amounts (Go float64 columns declared decimal(10,2)) are modelled
  as exact rationals (Rat); stock and quantities (Go int) as Int, since the
  Go code nowhere restricts them to be non-negative.
* Descriptive columns not read or written by the order engine (timestamps,
  soft-delete markers, the User association) are omitted; the users table is
  out of scope.  GORM-assigned surrogate keys of order items (ID, OrderID)
  are omitted; order items live inline in their order.
* An HTTP response is its status code plus an optional JSON body; the body
  constructors mirror exactly the gin.H literals of the handlers.
-/

namespace OrderEngine

/-- Order status enumeration from pkg/models/order.go
(pending, paid, shipped, delivered, cancelled). -/
inductive OrderStatus where
  | pending
  | paid
  | shipped
  | delivered
  | cancelled
deriving DecidableEq, Repr

/-- Product row (pkg/models/product.go): ID, Name, Description, Price, SKU,
Stock.  Timestamps and DeletedAt are omitted (never touched by the order
engine). -/
structure Product where
  id : Nat
  name : String
  description : String
  price : Rat
  sku : String
  stock : Int
deriving DecidableEq, Repr

/-- Order item row (pkg/models/order.go OrderItem): ProductID, Quantity,
Price.  The surrogate keys ID and OrderID are assigned by GORM and omitted;
an item is stored inline in its order. -/
structure OrderItem where
  productID : Nat
  quantity : Int
  price : Rat
deriving DecidableEq, Repr

/-- Order row (pkg/models/order.go Order): ID, UserID, Status, Total, Items.
Timestamps, DeletedAt and the preloaded User association are omitted. -/
structure Order where
  id : Nat
  userID : Nat
  status : OrderStatus
  total : Rat
  items : List OrderItem
deriving DecidableEq, Repr

/-- The request body bound by ShouldBindJSON(&order) in CreateOrder: a
client-supplied Order value.  The client may supply a status, a total and
per-item prices; CreateOrder overwrites all of them.  The GORM-assigned ID
is not part of the request. -/
structure OrderRequest where
  userID : Nat
  status : OrderStatus
  total : Rat
  items : List OrderItem
deriving DecidableEq, Repr

/-- The committed relational store: products and orders tables plus the
auto-increment counter that GORM uses to assign the next order id. -/
structure DB where
  products : List Product
  orders : List Order
  nextOrderId : Nat
deriving DecidableEq, Repr

/-- JSON bodies produced by the order-engine handlers, mirroring the gin.H
literals of order_handlers.go: the created order payload, and the error
objects (with exactly the structured fields each gin.H carries). -/
inductive RespBody where
  | orderPayload (o : Order)
  | productNotFoundFor (productId : Nat)
  | insufficientStockFor (productId : Nat) (available requested : Int)
  | orderNotFoundErr
  | invalidTransitionErr
  | alreadyCancelledErr
  | cannotCancelDeliveredErr
deriving DecidableEq, Repr

/-- An HTTP response: status code plus optional JSON body.  c.Status(code)
produces a body-less response; c.JSON(code, h) produces body some h. -/
structure HttpResp where
  status : Nat
  body : Option RespBody
deriving DecidableEq, Repr

/-- tx.First(&product, id): the first product row with the given primary
key. -/
def findProduct (db : DB) (pid : Nat) : Option Product :=
  db.products.find? (fun p => p.id == pid)

/-- The committed stock of a product, when it exists. -/
def getStock (db : DB) (pid : Nat) : Option Int :=
  (findProduct db pid).map (fun p => p.stock)

/-- tx.Model(&product).Update("stock", v): set the stock column of the row
with the given primary key to the value v computed on the Go side. -/
def setStock (db : DB) (pid : Nat) (v : Int) : DB :=
  { db with
    products := db.products.map (fun p => if p.id == pid then { p with stock := v } else p) }

/-- tx.Model(&Product).Where("id = ?", pid).Update("stock", gorm.Expr("stock + ?", q)):
increment the stock column in place.  A missing product id affects zero rows
and is not an error. -/
def addStock (db : DB) (pid : Nat) (q : Int) : DB :=
  { db with
    products := db.products.map (fun p => if p.id == pid then { p with stock := p.stock + q } else p) }

/-- The reservation outcomes of CreateOrder's per-item loop that abort the
transaction (order_handlers.go lines 32-56). -/
inductive ReserveErr where
  | productNotFound (productId : Nat)
  | insufficientStock (productId : Nat) (available requested : Int)
deriving DecidableEq, Repr

/-- The product id surfaced by a reservation error. -/
def ReserveErr.pid : ReserveErr → Nat
  | .productNotFound p => p
  | .insufficientStock p _ _ => p

/-- The HTTP response each reservation error is serialized to:
Product not found becomes 404 with the product id; Insufficient stock
becomes 400 with product id, available and requested quantities. -/
def reserveErrResp : ReserveErr → HttpResp
  | .productNotFound pid => ⟨404, some (.productNotFoundFor pid)⟩
  | .insufficientStock pid avail req => ⟨400, some (.insufficientStockFor pid avail req)⟩

/-- The reservation loop of CreateOrder (order_handlers.go lines 31-61),
threading the in-transaction store, the running total, and the items with
their prices frozen so far.  For each requested item, in caller-supplied
order: load the product (else Product not found), check
product.Stock < item.Quantity (else Insufficient stock), write
stock := product.Stock - item.Quantity, freeze the item price to
product.Price, and add product.Price * quantity to the total. -/
def reserveItems (tx : DB) (total : Rat) (acc : List OrderItem) :
    List OrderItem → Except ReserveErr (DB × Rat × List OrderItem)
  | [] => .ok (tx, total, acc)
  | item :: rest =>
    match findProduct tx item.productID with
    | none => .error (.productNotFound item.productID)
    | some product =>
      if product.stock < item.quantity then
        .error (.insufficientStock item.productID product.stock item.quantity)
      else
        reserveItems (setStock tx item.productID (product.stock - item.quantity))
          (total + product.price * (item.quantity : Rat))
          (acc ++ [{ item with price := product.price }]) rest

/-- CreateOrder (order_handlers.go lines 15-84): inside one transaction,
run the reservation loop over the requested items; on any reservation error
roll the transaction back (the committed store is unchanged) and serialize
the error; on success overwrite the client-supplied total and status
(total := computed sum, status := pending), persist the order with its
items as one unit, commit, and respond 201 with the created order. -/
def CreateOrder (db : DB) (req : OrderRequest) : DB × HttpResp :=
  match reserveItems db 0 [] req.items with
  | .error e => (db, reserveErrResp e)
  | .ok (tx, total, items) =>
    let order : Order :=
      { id := db.nextOrderId, userID := req.userID, status := .pending
        total := total, items := items }
    ({ tx with orders := tx.orders ++ [order], nextOrderId := tx.nextOrderId + 1 },
     ⟨201, some (.orderPayload order)⟩)

/-- The transition table of isValidStatusTransition (order_handlers.go
lines 229-253), as the per-state list of allowed next statuses. -/
def validTransitions : OrderStatus → List OrderStatus
  | .pending => [.paid, .cancelled]
  | .paid => [.shipped, .cancelled]
  | .shipped => [.delivered, .cancelled]
  | .delivered => []
  | .cancelled => []

/-- isValidStatusTransition(current, new): membership of the attempted next
status in the table row of the current status. -/
def isValidStatusTransition (current newStatus : OrderStatus) : Bool :=
  (validTransitions current).contains newStatus

/-- database.DB.First(&order, id): the first order row with the given
primary key. -/
def findOrder (db : DB) (oid : Nat) : Option Order :=
  db.orders.find? (fun o => o.id == oid)

/-- DB.Model(&order).Update("status", s): set the status column of the order
row with the given primary key. -/
def setOrderStatus (db : DB) (oid : Nat) (s : OrderStatus) : DB :=
  { db with
    orders := db.orders.map (fun o => if o.id == oid then { o with status := s } else o) }

/-- UpdateOrderStatus (order_handlers.go lines 140-170): load the order
(else 404 Order not found), check isValidStatusTransition (else 400 Invalid
status transition, nothing written), persist the new status, and respond
with c.Status(200) — a 200 response with no body. -/
def UpdateOrderStatus (db : DB) (oid : Nat) (newStatus : OrderStatus) : DB × HttpResp :=
  match findOrder db oid with
  | none => (db, ⟨404, some .orderNotFoundErr⟩)
  | some order =>
    if !isValidStatusTransition order.status newStatus then
      (db, ⟨400, some .invalidTransitionErr⟩)
    else
      (setOrderStatus db oid newStatus, ⟨200, none⟩)

/-- The stock-restoration loop of CancelOrder (order_handlers.go lines
202-212): for each item of the order, increment the referenced product's
stock by the item quantity. -/
def restoreItems (db : DB) : List OrderItem → DB
  | [] => db
  | item :: rest => restoreItems (addStock db item.productID item.quantity) rest

/-- CancelOrder (order_handlers.go lines 173-226): inside one transaction,
load the order with its items (else 404), reject if already cancelled or
delivered (400, nothing written), otherwise restore stock for every item,
set the status to cancelled, commit, and respond with c.Status(200) — a 200
response with no body. -/
def CancelOrder (db : DB) (oid : Nat) : DB × HttpResp :=
  match findOrder db oid with
  | none => (db, ⟨404, some .orderNotFoundErr⟩)
  | some order =>
    if order.status = .cancelled then
      (db, ⟨400, some .alreadyCancelledErr⟩)
    else if order.status = .delivered then
      (db, ⟨400, some .cannotCancelDeliveredErr⟩)
    else
      (setOrderStatus (restoreItems db order.items) oid .cancelled, ⟨200, none⟩)

/-- UpdateProduct (product_handlers.go): load the product by id, bind the
request body over it, and Save the resulting row.  Modelled by its effect on
the store: the product row with the given id is replaced by the bound value
(the primary key is preserved); the orders table is never touched.  The 404
and 200 responses of this handler are outside every claim and omitted. -/
def UpdateProduct (db : DB) (pid : Nat) (updated : Product) : DB :=
  match findProduct db pid with
  | none => db
  | some _ =>
    { db with
      products := db.products.map (fun p => if p.id == pid then { updated with id := pid } else p) }

/-!
Micro-step model of one stock reservation under concurrency.

CreateOrder's loop body issues two separate SQL statements per item
(order_handlers.go lines 34 and 52): a SELECT (tx.First) that reads the
committed stock into the Go variable product, and an UPDATE
(tx.Model(&product).Update("stock", product.Stock-item.Quantity)) that
writes the value computed in Go from that earlier read.  Neither a
conditional UPDATE (... WHERE stock >= q) nor a row lock (SELECT ... FOR
UPDATE) is used, so between the two statements of one transaction another
transaction may SELECT the same committed stock.  Under read-committed
isolation the later UPDATE waits for the earlier transaction's commit and
then overwrites the row with its stale-read-derived value.

The model below runs two such single-item reservations against one shared
product row under an arbitrary interleaving of their statements.
-/

/-- The progress of one reservation transaction: the stock value its SELECT
read (none until the SELECT ran), and its outcome (none until it finished;
some true = stock decremented and committed, some false = check failed and
rolled back). -/
structure TxState where
  readStock : Option Int
  outcome : Option Bool
deriving DecidableEq, Repr

/-- Run the next statement of one reservation transaction for quantity q
against the committed stock: first the SELECT records the committed stock;
then the Go-side check product.Stock < q either aborts (stock unchanged) or
the UPDATE commits stock := readStock - q, the value computed from the
possibly stale read.  A finished transaction does nothing. -/
def stepTx (stock : Int) (q : Int) (t : TxState) : Int × TxState :=
  match t.readStock, t.outcome with
  | none, _ => (stock, { t with readStock := some stock })
  | some r, none =>
    if r < q then (stock, { t with outcome := some false })
    else (r - q, { t with outcome := some true })
  | some _, some _ => (stock, t)

/-- Shared state of the two-client race: the committed stock of the one
product and the progress of the two reservation transactions. -/
structure RaceState where
  stock : Int
  tx1 : TxState
  tx2 : TxState
deriving DecidableEq, Repr

/-- Run a schedule (true = a statement of transaction 1, false = of
transaction 2) of two single-item reservations of quantities q1 and q2
against the shared product. -/
def runSchedule (q1 q2 : Int) : RaceState → List Bool → RaceState
  | s, [] => s
  | s, c :: rest =>
    if c then
      let r := stepTx s.stock q1 s.tx1
      runSchedule q1 q2 { s with stock := r.1, tx1 := r.2 } rest
    else
      let r := stepTx s.stock q2 s.tx2
      runSchedule q1 q2 { s with stock := r.1, tx2 := r.2 } rest

/-! ### Store-access lemmas -/

/-- Looking a product up after mapping an id-preserving function over the
products table is looking it up first and mapping afterwards. -/
theorem findProduct_congr_map (db : DB) (f : Product → Product)
    (hid : ∀ p, (f p).id = p.id) (pid : Nat) :
    findProduct { db with products := db.products.map f } pid =
      (findProduct db pid).map f := by
  unfold findProduct
  simp only [List.find?_map]
  have hpred : ((fun p : Product => p.id == pid) ∘ f) = (fun p : Product => p.id == pid) := by
    funext p
    simp [Function.comp, hid]
  rw [hpred]

/-- A found product carries the id it was looked up by. -/
theorem findProduct_some_id {db : DB} {pid : Nat} {p : Product}
    (h : findProduct db pid = some p) : p.id = pid := by
  have := List.find?_some h
  simpa using this

theorem findProduct_setStock (db : DB) (pid : Nat) (v : Int) (pid2 : Nat) :
    findProduct (setStock db pid v) pid2 =
      (findProduct db pid2).map (fun p => if p.id == pid then { p with stock := v } else p) := by
  unfold setStock
  exact findProduct_congr_map db _ (fun p => by by_cases h : p.id == pid <;> simp [h]) pid2

theorem findProduct_addStock (db : DB) (pid : Nat) (q : Int) (pid2 : Nat) :
    findProduct (addStock db pid q) pid2 =
      (findProduct db pid2).map
        (fun p => if p.id == pid then { p with stock := p.stock + q } else p) := by
  unfold addStock
  exact findProduct_congr_map db _ (fun p => by by_cases h : p.id == pid <;> simp [h]) pid2

/-- Writing one product's stock changes no product's price. -/
theorem findPrice_setStock (db : DB) (pid : Nat) (v : Int) (pid2 : Nat) :
    (findProduct (setStock db pid v) pid2).map (fun p => p.price) =
      (findProduct db pid2).map (fun p => p.price) := by
  rw [findProduct_setStock, Option.map_map]
  congr 1
  funext p
  dsimp only [Function.comp]
  split <;> rfl

theorem getStock_setStock {db : DB} {pid2 : Nat} {s : Int} (pid : Nat) (v : Int)
    (h : getStock db pid2 = some s) :
    getStock (setStock db pid v) pid2 = some (if pid2 == pid then v else s) := by
  unfold getStock at h ⊢
  rw [findProduct_setStock, Option.map_map]
  obtain ⟨p, hp, hps⟩ := Option.map_eq_some'.mp h
  have hid : p.id = pid2 := findProduct_some_id hp
  rw [hp]
  simp only [Option.map_some', Function.comp]
  subst hid hps
  split <;> simp_all

theorem getStock_addStock {db : DB} {pid2 : Nat} {s : Int} (pid : Nat) (q : Int)
    (h : getStock db pid2 = some s) :
    getStock (addStock db pid q) pid2 = some (if pid2 == pid then s + q else s) := by
  unfold getStock at h ⊢
  rw [findProduct_addStock, Option.map_map]
  obtain ⟨p, hp, hps⟩ := Option.map_eq_some'.mp h
  have hid : p.id = pid2 := findProduct_some_id hp
  rw [hp]
  simp only [Option.map_some', Function.comp]
  subst hid hps
  split <;> simp_all

theorem setOrderStatus_products (db : DB) (oid : Nat) (s : OrderStatus) :
    (setOrderStatus db oid s).products = db.products := rfl

theorem getStock_setOrderStatus (db : DB) (oid : Nat) (st : OrderStatus) (pid : Nat) :
    getStock (setOrderStatus db oid st) pid = getStock db pid := rfl

/-- The total quantity an order's item list debits from one product: the sum
of the quantities of its items referencing that product. -/
def itemsDebit (items : List OrderItem) (pid : Nat) : Int :=
  ((items.filter (fun it => it.productID == pid)).map (fun it => it.quantity)).sum

theorem itemsDebit_nil (pid : Nat) : itemsDebit [] pid = 0 := rfl

theorem itemsDebit_cons (it : OrderItem) (rest : List OrderItem) (pid : Nat) :
    itemsDebit (it :: rest) pid =
      (if it.productID == pid then it.quantity else 0) + itemsDebit rest pid := by
  by_cases h : it.productID == pid <;>
    simp [itemsDebit, List.filter_cons, h]

/-- The key of an item that the reservation loop reads: the product id and
the quantity (the price is overwritten, everything else ignored). -/
def itemKey (it : OrderItem) : Nat × Int := (it.productID, it.quantity)

/-- Items that agree on product id and quantity debit the same amounts. -/
theorem itemsDebit_congr :
    ∀ {l₁ l₂ : List OrderItem}, l₁.map itemKey = l₂.map itemKey →
      ∀ pid, itemsDebit l₁ pid = itemsDebit l₂ pid := by
  intro l₁
  induction l₁ with
  | nil =>
    intro l₂ h pid
    cases l₂ with
    | nil => rfl
    | cons b bs => simp at h
  | cons a as ih =>
    intro l₂ h pid
    cases l₂ with
    | nil => simp at h
    | cons b bs =>
      simp only [List.map_cons, List.cons.injEq] at h
      obtain ⟨hk, hrest⟩ := h
      have h1 : a.productID = b.productID := congrArg Prod.fst hk
      have h2 : a.quantity = b.quantity := congrArg Prod.snd hk
      rw [itemsDebit_cons, itemsDebit_cons, h1, h2, ih hrest]

/-- Restoring a list of items adds, to each product present in the store,
exactly the quantity that list debits for it. -/
theorem restoreItems_getStock :
    ∀ (items : List OrderItem) (db : DB) (pid : Nat) (s : Int),
      getStock db pid = some s →
      getStock (restoreItems db items) pid = some (s + itemsDebit items pid) := by
  intro items
  induction items with
  | nil =>
    intro db pid s h
    simpa [restoreItems, itemsDebit_nil] using h
  | cons it rest ih =>
    intro db pid s h
    have hstep := getStock_addStock it.productID it.quantity h
    have := ih (addStock db it.productID it.quantity) pid _ hstep
    rw [restoreItems, this, itemsDebit_cons]
    by_cases hc : pid = it.productID
    · subst hc
      simp only [beq_self_eq_true, if_pos]
      congr 1
      omega
    · have hc1 : (pid == it.productID) = false := by simpa using hc
      have hc2 : (it.productID == pid) = false := by simpa using fun h => hc h.symm
      rw [hc1, hc2]
      simp only [if_neg Bool.false_ne_true]
      congr 1
      omega

theorem restoreItems_orders :
    ∀ (items : List OrderItem) (db : DB), (restoreItems db items).orders = db.orders := by
  intro items
  induction items with
  | nil => intro db; rfl
  | cons it rest ih => intro db; rw [restoreItems, ih]; rfl

theorem restoreItems_nextOrderId :
    ∀ (items : List OrderItem) (db : DB),
      (restoreItems db items).nextOrderId = db.nextOrderId := by
  intro items
  induction items with
  | nil => intro db; rfl
  | cons it rest ih => intro db; rw [restoreItems, ih]; rfl

/-! ### Reservation-loop lemmas -/

/-- A reservation error names the product id of one of the requested
items. -/
theorem reserveItems_error_mem :
    ∀ (l : List OrderItem) (tx : DB) (t : Rat) (a : List OrderItem) (e : ReserveErr),
      reserveItems tx t a l = .error e → ∃ it ∈ l, it.productID = e.pid := by
  intro l
  induction l with
  | nil => intro tx t a e h; simp [reserveItems] at h
  | cons item rest ih =>
    intro tx t a e h
    rw [reserveItems] at h
    cases hfp : findProduct tx item.productID with
    | none =>
      rw [hfp] at h
      dsimp only at h
      injection h with h
      subst h
      exact ⟨item, List.mem_cons_self _ _, rfl⟩
    | some product =>
      rw [hfp] at h
      dsimp only at h
      by_cases hlt : product.stock < item.quantity
      · rw [if_pos hlt] at h
        injection h with h
        subst h
        exact ⟨item, List.mem_cons_self _ _, rfl⟩
      · rw [if_neg hlt] at h
        obtain ⟨it, hmem, hpid⟩ := ih _ _ _ _ h
        exact ⟨it, List.mem_cons_of_mem _ hmem, hpid⟩

/-- Master specification of a successful reservation pass: the produced
items are the accumulator followed by one frozen item per request (same
product ids and quantities, prices frozen to the product prices at loop
entry), the total grows by the sum of price times quantity over the frozen
items, each product's stock shrinks by exactly the quantity debited for it,
and the orders table and id counter are untouched. -/
theorem reserveItems_ok_spec :
    ∀ (l : List OrderItem) (tx : DB) (t : Rat) (a : List OrderItem)
      (tx' : DB) (t' : Rat) (its : List OrderItem),
      reserveItems tx t a l = .ok (tx', t', its) →
      ∃ suffix : List OrderItem,
        its = a ++ suffix ∧
        t' = t + (suffix.map (fun it => it.price * (it.quantity : Rat))).sum ∧
        suffix.map itemKey = l.map itemKey ∧
        (∀ it ∈ suffix, (findProduct tx it.productID).map (fun p => p.price) = some it.price) ∧
        (∀ pid s, getStock tx pid = some s → getStock tx' pid = some (s - itemsDebit suffix pid)) ∧
        tx'.orders = tx.orders ∧ tx'.nextOrderId = tx.nextOrderId := by
  intro l
  induction l with
  | nil =>
    intro tx t a tx' t' its h
    rw [reserveItems] at h
    injection h with h
    simp only [Prod.mk.injEq] at h
    obtain ⟨rfl, rfl, rfl⟩ := h
    refine ⟨[], by simp, by simp, rfl, ?_, ?_, rfl, rfl⟩
    · intro it hit; simp at hit
    · intro pid s hs; simpa [itemsDebit_nil] using hs
  | cons item rest ih =>
    intro tx t a tx' t' its h
    rw [reserveItems] at h
    cases hfp : findProduct tx item.productID with
    | none => rw [hfp] at h; simp at h
    | some product =>
      rw [hfp] at h
      dsimp only at h
      by_cases hlt : product.stock < item.quantity
      · rw [if_pos hlt] at h; simp at h
      · rw [if_neg hlt] at h
        obtain ⟨suffix, hits, ht, hkeys, hprices, hstock, horders, hnext⟩ :=
          ih _ _ _ _ _ _ h
        refine ⟨{ item with price := product.price } :: suffix, ?_, ?_, ?_, ?_, ?_, ?_, ?_⟩
        · rw [hits]; simp
        · rw [ht, List.map_cons, List.sum_cons]; ring
        · simp only [List.map_cons, hkeys]; rfl
        · intro it hit
          rcases List.mem_cons.mp hit with hhd | htl
          · subst hhd; simp [hfp]
          · rw [← findPrice_setStock tx item.productID (product.stock - item.quantity)
              it.productID]
            exact hprices it htl
        · intro pid s hs
          have h1 := getStock_setStock item.productID
            (product.stock - item.quantity) hs
          have h2 := hstock pid _ h1
          rw [h2, itemsDebit_cons]
          by_cases hc : pid = item.productID
          · subst hc
            have hsp : product.stock = s := by
              have hx : getStock tx item.productID = some product.stock := by
                unfold getStock; rw [hfp]; rfl
              rw [hx] at hs
              exact Option.some.inj hs
            simp only [beq_self_eq_true, if_true]
            congr 1
            omega
          · have hc1 : (pid == item.productID) = false := by simpa using hc
            have hc2 : (item.productID == pid) = false := by
              simpa using fun hcontra => hc hcontra.symm
            rw [hc1, hc2]
            simp only [Bool.false_eq_true, if_false]
            congr 1
            omega
        · rw [horders]; rfl
        · rw [hnext]; rfl

/-- The reservation loop reads only the product id and the quantity of each
requested item: requests agreeing on those run identically. -/
theorem reserveItems_congr :
    ∀ (l₁ l₂ : List OrderItem) (tx : DB) (t : Rat) (a : List OrderItem),
      l₁.map itemKey = l₂.map itemKey →
      reserveItems tx t a l₁ = reserveItems tx t a l₂ := by
  intro l₁
  induction l₁ with
  | nil =>
    intro l₂ tx t a h
    cases l₂ with
    | nil => rfl
    | cons b bs => simp at h
  | cons i₁ r₁ ih =>
    intro l₂ tx t a h
    cases l₂ with
    | nil => simp at h
    | cons i₂ r₂ =>
      simp only [List.map_cons, List.cons.injEq] at h
      obtain ⟨hk, hrest⟩ := h
      have h1 : i₁.productID = i₂.productID := congrArg Prod.fst hk
      have h2 : i₁.quantity = i₂.quantity := congrArg Prod.snd hk
      rw [reserveItems, reserveItems, h1, h2]
      cases hfp : findProduct tx i₂.productID with
      | none => rfl
      | some product =>
        dsimp only
        by_cases hlt : product.stock < i₂.quantity
        · rw [if_pos hlt, if_pos hlt]
        · rw [if_neg hlt, if_neg hlt]
          exact ih r₂ _ _ _ hrest

/-! ### Stock-sign lemmas -/

/-- Every committed product row has non-negative stock. -/
def stocksNonneg (db : DB) : Prop := ∀ p ∈ db.products, 0 ≤ p.stock

/-- Every stored order item has strictly positive quantity (invariant I1 of
the specification). -/
def ordersPos (db : DB) : Prop := ∀ o ∈ db.orders, ∀ it ∈ o.items, 0 < it.quantity

/-- One reservation step that passed the stock check leaves every stock
non-negative: the decremented row holds stock - quantity, which the check
made non-negative, and no other row changes. -/
theorem stocksNonneg_setStock {tx : DB} {pid : Nat} {p : Product} {q : Int}
    (hfp : findProduct tx pid = some p) (hle : ¬p.stock < q) (hnn : stocksNonneg tx) :
    stocksNonneg (setStock tx pid (p.stock - q)) := by
  intro x hx
  unfold setStock at hx
  simp only [List.mem_map] at hx
  obtain ⟨y, hy, hfy⟩ := hx
  subst hfy
  by_cases hc : y.id == pid
  · have hnny := hnn y hy
    simp only [hc, if_true]
    omega
  · simp only [hc, Bool.false_eq_true, if_false]
    exact hnn y hy

/-- A successful reservation pass preserves non-negativity of all stocks. -/
theorem reserveItems_ok_stocksNonneg :
    ∀ (l : List OrderItem) (tx : DB) (t : Rat) (a : List OrderItem)
      (tx' : DB) (t' : Rat) (its : List OrderItem),
      reserveItems tx t a l = .ok (tx', t', its) →
      stocksNonneg tx → stocksNonneg tx' := by
  intro l
  induction l with
  | nil =>
    intro tx t a tx' t' its h hnn
    rw [reserveItems] at h
    injection h with h
    simp only [Prod.mk.injEq] at h
    obtain ⟨rfl, -, -⟩ := h
    exact hnn
  | cons item rest ih =>
    intro tx t a tx' t' its h hnn
    rw [reserveItems] at h
    cases hfp : findProduct tx item.productID with
    | none => rw [hfp] at h; simp at h
    | some product =>
      rw [hfp] at h
      dsimp only at h
      by_cases hlt : product.stock < item.quantity
      · rw [if_pos hlt] at h; simp at h
      · rw [if_neg hlt] at h
        exact ih _ _ _ _ _ _ h (stocksNonneg_setStock hfp hlt hnn)

/-- Incrementing one product's stock by a non-negative amount preserves
non-negativity of all stocks. -/
theorem stocksNonneg_addStock {db : DB} {pid : Nat} {q : Int}
    (hq : 0 ≤ q) (hnn : stocksNonneg db) : stocksNonneg (addStock db pid q) := by
  intro x hx
  unfold addStock at hx
  simp only [List.mem_map] at hx
  obtain ⟨y, hy, hfy⟩ := hx
  subst hfy
  have hnny := hnn y hy
  by_cases hc : y.id == pid
  · simp only [hc, if_true]; omega
  · simp only [hc, Bool.false_eq_true, if_false]; exact hnny

/-- Restoring items of non-negative quantity preserves non-negativity of all
stocks. -/
theorem restoreItems_stocksNonneg :
    ∀ (items : List OrderItem) (db : DB), (∀ it ∈ items, 0 ≤ it.quantity) →
      stocksNonneg db → stocksNonneg (restoreItems db items) := by
  intro items
  induction items with
  | nil => intro db _ hnn; exact hnn
  | cons it rest ih =>
    intro db hpos hnn
    rw [restoreItems]
    exact ih _ (fun x hx => hpos x (List.mem_cons_of_mem _ hx))
      (stocksNonneg_addStock (hpos it (List.mem_cons_self _ _)) hnn)

/-! ### Concrete stores used by witnesses and counterexamples -/

/-- A store with one product (id 1, price 2, stock 5) and no orders. -/
def dbStock5 : DB := ⟨[⟨1, "Widget", "", 2, "SKU-1", 5⟩], [], 1⟩

/-- A store with one product (id 1, price 2, stock 3) and one pending order
(id 1) that debited 2 units of product 1. -/
def dbOrderPending : DB :=
  ⟨[⟨1, "Widget", "", 2, "SKU-1", 3⟩], [⟨1, 7, .pending, 4, [⟨1, 2, 2⟩]⟩], 2⟩

/-! ### C1: reservation failure aborts, rolls back, and is surfaced -/

/-- C1: whenever some item's stock reservation fails (product missing or
insufficient stock), CreateOrder returns the committed store exactly as it
was — every decrement applied for earlier items of the request is rolled
back and no order is created — and the response surfaces the failing item's
product id together with the failure reason. -/
theorem createOrder_error_rolls_back (db : DB) (req : OrderRequest) (e : ReserveErr)
    (h : reserveItems db 0 [] req.items = .error e) :
    CreateOrder db req = (db, reserveErrResp e) ∧
      ∃ it ∈ req.items, it.productID = e.pid := by
  constructor
  · unfold CreateOrder
    rw [h]
  · exact reserveItems_error_mem _ _ _ _ _ h

/-- Witness for C1: requesting 7 units of the product with stock 5 fails
with the Insufficient stock response naming product 1, and the store is
returned unchanged. -/
theorem createOrder_error_rolls_back_witness :
    CreateOrder dbStock5 ⟨7, .pending, 0, [⟨1, 7, 0⟩]⟩
        = (dbStock5, reserveErrResp (.insufficientStock 1 5 7)) ∧
      ∃ it ∈ (⟨7, .pending, 0, [⟨1, 7, 0⟩]⟩ : OrderRequest).items,
        it.productID = (ReserveErr.insufficientStock 1 5 7).pid :=
  createOrder_error_rolls_back dbStock5 ⟨7, .pending, 0, [⟨1, 7, 0⟩]⟩ _ (by rfl)

/-! ### C2: totals and frozen prices -/

/-- C2: every order CreateOrder creates has total equal to the sum of
unit price times quantity over its items, every item's unit price is the
referenced product's price at reservation time, and a later UpdateProduct
(price change included) leaves the orders table — hence the stored item
prices and the order total — unchanged. -/
theorem createOrder_total_and_frozen_prices (db : DB) (req : OrderRequest)
    (db1 : DB) (o : Order)
    (h : CreateOrder db req = (db1, ⟨201, some (.orderPayload o)⟩)) :
    o.total = (o.items.map (fun it => it.price * (it.quantity : Rat))).sum ∧
    (∀ it ∈ o.items, ∃ p, findProduct db it.productID = some p ∧ it.price = p.price) ∧
    (∀ pid updated, (UpdateProduct db1 pid updated).orders = db1.orders) := by
  unfold CreateOrder at h
  cases hr : reserveItems db 0 [] req.items with
  | error e =>
    rw [hr] at h
    dsimp only at h
    cases e <;> simp [reserveErrResp] at h
  | ok res =>
    obtain ⟨tx, total, items⟩ := res
    rw [hr] at h
    dsimp only at h
    simp only [Prod.mk.injEq, HttpResp.mk.injEq, Option.some.injEq,
      RespBody.orderPayload.injEq, true_and] at h
    obtain ⟨hdb1, ho⟩ := h
    obtain ⟨suffix, hits, ht, hkeys, hprices, hstock, -, -⟩ :=
      reserveItems_ok_spec _ _ _ _ _ _ _ hr
    rw [List.nil_append] at hits
    subst hits
    subst ho
    subst hdb1
    refine ⟨?_, ?_, ?_⟩
    · dsimp only
      rw [ht, zero_add]
    · intro it hit
      obtain ⟨p, hp, hpp⟩ := Option.map_eq_some'.mp (hprices it hit)
      exact ⟨p, hp, hpp.symm⟩
    · intro pid updated
      unfold UpdateProduct
      cases findProduct _ pid <;> rfl

/-- Witness for C2: creating an order of 3 units of the product priced 2
yields total 6 with item price frozen at 2. -/
theorem createOrder_total_and_frozen_prices_witness :
    ((⟨1, 7, .pending, 6, [⟨1, 3, 2⟩]⟩ : Order).total
        = ((⟨1, 7, .pending, 6, [⟨1, 3, 2⟩]⟩ : Order).items.map
            (fun it => it.price * (it.quantity : Rat))).sum) ∧
    (∀ it ∈ (⟨1, 7, .pending, 6, [⟨1, 3, 2⟩]⟩ : Order).items,
      ∃ p, findProduct dbStock5 it.productID = some p ∧ it.price = p.price) ∧
    (∀ pid updated,
      (UpdateProduct ⟨[⟨1, "Widget", "", 2, "SKU-1", 2⟩],
          [⟨1, 7, .pending, 6, [⟨1, 3, 2⟩]⟩], 2⟩ pid updated).orders =
        (⟨[⟨1, "Widget", "", 2, "SKU-1", 2⟩],
          [⟨1, 7, .pending, 6, [⟨1, 3, 2⟩]⟩], 2⟩ : DB).orders) :=
  createOrder_total_and_frozen_prices dbStock5 ⟨7, .shipped, 99, [⟨1, 3, 42⟩]⟩
    ⟨[⟨1, "Widget", "", 2, "SKU-1", 2⟩], [⟨1, 7, .pending, 6, [⟨1, 3, 2⟩]⟩], 2⟩
    ⟨1, 7, .pending, 6, [⟨1, 3, 2⟩]⟩ (by
      have h : CreateOrder dbStock5 ⟨7, .shipped, 99, [⟨1, 3, 42⟩]⟩ =
          (⟨[⟨1, "Widget", "", 2, "SKU-1", 2⟩],
            [⟨1, 7, .pending, 0 + 2 * ((3 : Int) : Rat), [⟨1, 3, 2⟩]⟩], 2⟩,
           ⟨201, some (.orderPayload
              ⟨1, 7, .pending, 0 + 2 * ((3 : Int) : Rat), [⟨1, 3, 2⟩]⟩)⟩) := rfl
      rw [h]
      norm_num)

/-! ### C3: the status transition table -/

/-- The transition table of specification section 4.2, as the list of its
edges. -/
def specTransitionTable : List (OrderStatus × OrderStatus) :=
  [(.pending, .paid), (.pending, .cancelled),
   (.paid, .shipped), (.paid, .cancelled),
   (.shipped, .delivered), (.shipped, .cancelled)]

/-- C3: isValidStatusTransition accepts exactly the edges of the
specification's transition table (so every self-transition and every
transition out of delivered or cancelled is rejected); on an existing order,
UpdateOrderStatus fails with the Invalid status transition response and
leaves the store unchanged for every pair outside the table, and succeeds
for every pair in it. -/
theorem updateOrderStatus_transition_table (db : DB) (oid : Nat) (o : Order)
    (attempted : OrderStatus) (h : findOrder db oid = some o) :
    (∀ c n, isValidStatusTransition c n = specTransitionTable.contains (c, n)) ∧
    (specTransitionTable.contains (o.status, attempted) = false →
      UpdateOrderStatus db oid attempted = (db, ⟨400, some .invalidTransitionErr⟩)) ∧
    (specTransitionTable.contains (o.status, attempted) = true →
      (UpdateOrderStatus db oid attempted).2 = ⟨200, none⟩) := by
  have htab : ∀ c n, isValidStatusTransition c n = specTransitionTable.contains (c, n) := by
    intro c n
    cases c <;> cases n <;> rfl
  refine ⟨htab, ?_, ?_⟩
  · intro hf
    unfold UpdateOrderStatus
    rw [h]
    dsimp only
    rw [htab, hf]
    rfl
  · intro htr
    unfold UpdateOrderStatus
    rw [h]
    dsimp only
    rw [htab, htr]
    rfl

/-- Witness for C3: pending to shipped is outside the table, so the update
on the pending order fails with Invalid status transition and changes
nothing; the table facts are part of the applied conjunction. -/
theorem updateOrderStatus_transition_table_witness :
    (∀ c n, isValidStatusTransition c n = specTransitionTable.contains (c, n)) ∧
    (specTransitionTable.contains
        ((⟨1, 7, .pending, 4, [⟨1, 2, 2⟩]⟩ : Order).status, OrderStatus.shipped) = false →
      UpdateOrderStatus dbOrderPending 1 .shipped
        = (dbOrderPending, ⟨400, some .invalidTransitionErr⟩)) ∧
    (specTransitionTable.contains
        ((⟨1, 7, .pending, 4, [⟨1, 2, 2⟩]⟩ : Order).status, OrderStatus.shipped) = true →
      (UpdateOrderStatus dbOrderPending 1 .shipped).2 = ⟨200, none⟩) :=
  updateOrderStatus_transition_table dbOrderPending 1 ⟨1, 7, .pending, 4, [⟨1, 2, 2⟩]⟩
    .shipped (by rfl)

/-! ### C5: empty requests -/

/-- C5 counterexample: CreateOrder with an empty item list does not fail —
there is no EmptyOrder check anywhere in the handler — and instead commits
an order with no items, total 0 and status pending, responding 201. -/
theorem createOrder_empty_items_succeeds :
    CreateOrder dbStock5 ⟨7, .pending, 0, []⟩ =
      ({ dbStock5 with orders := [⟨1, 7, .pending, 0, []⟩], nextOrderId := 2 },
       ⟨201, some (.orderPayload ⟨1, 7, .pending, 0, []⟩)⟩) := rfl

/-- C5 amended: for every CreateOrder call whose item list is empty, the
operation succeeds (no EmptyOrder error exists), creating a pending order
with no items and total 0; products are untouched. -/
theorem createOrder_empty_items_behavior (db : DB) (req : OrderRequest)
    (h : req.items = []) :
    CreateOrder db req =
      ({ db with
          orders := db.orders ++ [⟨db.nextOrderId, req.userID, .pending, 0, []⟩]
          nextOrderId := db.nextOrderId + 1 },
       ⟨201, some (.orderPayload ⟨db.nextOrderId, req.userID, .pending, 0, []⟩)⟩) := by
  unfold CreateOrder
  rw [h]
  rfl

/-- Witness for C5 amended, at a concrete empty request. -/
theorem createOrder_empty_items_behavior_witness :
    CreateOrder dbStock5 ⟨7, .paid, 99, []⟩ =
      ({ dbStock5 with
          orders := dbStock5.orders ++ [⟨dbStock5.nextOrderId, 7, .pending, 0, []⟩]
          nextOrderId := dbStock5.nextOrderId + 1 },
       ⟨201, some (.orderPayload ⟨dbStock5.nextOrderId, 7, .pending, 0, []⟩)⟩) :=
  createOrder_empty_items_behavior dbStock5 ⟨7, .paid, 99, []⟩ rfl

/-! ### C6: no quantity validation -/

/-- C6 counterexample: a requested quantity of -3 is not rejected with any
InvalidQuantity error: the order is created (with a negative-quantity item
and a negative total) and the product's stock is mutated from 5 up to 8. -/
theorem createOrder_accepts_nonpositive_quantity :
    CreateOrder dbStock5 ⟨7, .pending, 0, [⟨1, -3, 0⟩]⟩ =
      (⟨[⟨1, "Widget", "", 2, "SKU-1", 8⟩], [⟨1, 7, .pending, -6, [⟨1, -3, 2⟩]⟩], 2⟩,
       ⟨201, some (.orderPayload ⟨1, 7, .pending, -6, [⟨1, -3, 2⟩]⟩)⟩) := by
  have h : CreateOrder dbStock5 ⟨7, .pending, 0, [⟨1, -3, 0⟩]⟩ =
      (⟨[⟨1, "Widget", "", 2, "SKU-1", 8⟩],
        [⟨1, 7, .pending, 0 + 2 * ((-3 : Int) : Rat), [⟨1, -3, 2⟩]⟩], 2⟩,
       ⟨201, some (.orderPayload
          ⟨1, 7, .pending, 0 + 2 * ((-3 : Int) : Rat), [⟨1, -3, 2⟩]⟩)⟩) := rfl
  rw [h]
  norm_num

/-- C6 amended: CreateOrder performs no quantity validation.  A single-item
request with quantity q ≤ 0 on an existing product with non-negative stock
passes the stock check, commits stock := stock - q (so the stock does not
decrease: it grows by -q), and creates an order whose item carries the
non-positive quantity q, with the frozen price and total p.price * q. -/
theorem createOrder_no_quantity_validation (db : DB) (u : Nat) (st : OrderStatus)
    (tt : Rat) (pid : Nat) (q : Int) (pr : Rat) (p : Product)
    (hfp : findProduct db pid = some p) (hq : q ≤ 0) (hs : 0 ≤ p.stock) :
    CreateOrder db ⟨u, st, tt, [⟨pid, q, pr⟩]⟩ =
      ({ setStock db pid (p.stock - q) with
          orders := db.orders ++
            [⟨db.nextOrderId, u, .pending, p.price * (q : Rat), [⟨pid, q, p.price⟩]⟩]
          nextOrderId := db.nextOrderId + 1 },
       ⟨201, some (.orderPayload
          ⟨db.nextOrderId, u, .pending, p.price * (q : Rat), [⟨pid, q, p.price⟩]⟩)⟩) ∧
    p.stock ≤ p.stock - q := by
  have hlt : ¬p.stock < q := by omega
  refine ⟨?_, by omega⟩
  unfold CreateOrder
  simp only [reserveItems, hfp, if_neg hlt]
  simp [setStock, zero_add]

/-- Witness for C6 amended: quantity -3 against stock 5 commits stock 8. -/
theorem createOrder_no_quantity_validation_witness :
    (CreateOrder dbStock5 ⟨7, .pending, 0, [⟨1, -3, 0⟩]⟩ =
      ({ setStock dbStock5 1 ((5 : Int) - (-3)) with
          orders := dbStock5.orders ++
            [⟨dbStock5.nextOrderId, 7, .pending, (2 : Rat) * ((-3 : Int) : Rat),
              [⟨1, -3, 2⟩]⟩]
          nextOrderId := dbStock5.nextOrderId + 1 },
       ⟨201, some (.orderPayload
          ⟨dbStock5.nextOrderId, 7, .pending, (2 : Rat) * ((-3 : Int) : Rat),
            [⟨1, -3, 2⟩]⟩)⟩)) ∧
    (5 : Int) ≤ (5 : Int) - (-3) :=
  createOrder_no_quantity_validation dbStock5 7 .pending 0 1 (-3) 0
    ⟨1, "Widget", "", 2, "SKU-1", 5⟩ (by rfl) (by decide) (by decide)

/-! ### C10: client-supplied total, status and prices are ignored -/

/-- C10: CreateOrder reads only the user id and the (product id, quantity)
pairs of the request; two requests agreeing on those — whatever total,
status or item prices the client supplied — produce identical stores and
identical responses, hence the same pending status, the same frozen item
prices and the same server-computed total. -/
theorem createOrder_ignores_client_supplied_fields (db : DB) (r1 r2 : OrderRequest)
    (hu : r1.userID = r2.userID)
    (hi : r1.items.map itemKey = r2.items.map itemKey) :
    CreateOrder db r1 = CreateOrder db r2 := by
  unfold CreateOrder
  rw [reserveItems_congr r1.items r2.items db 0 [] hi, hu]

/-- Witness for C10: a request padded with bogus status shipped, total 99
and item price 42 creates exactly the same order as the plain request. -/
theorem createOrder_ignores_client_supplied_fields_witness :
    CreateOrder dbStock5 ⟨7, .shipped, 99, [⟨1, 3, 42⟩]⟩ =
      CreateOrder dbStock5 ⟨7, .pending, 0, [⟨1, 3, 7⟩]⟩ :=
  createOrder_ignores_client_supplied_fields dbStock5 _ _ rfl (by rfl)

/-! ### Order-table access lemmas -/

/-- Looking an order up after mapping an id-preserving function over the
orders table is looking it up first and mapping afterwards. -/
theorem findOrder_congr_map (db : DB) (f : Order → Order)
    (hid : ∀ o, (f o).id = o.id) (oid : Nat) :
    findOrder { db with orders := db.orders.map f } oid = (findOrder db oid).map f := by
  unfold findOrder
  simp only [List.find?_map]
  have hpred : ((fun o : Order => o.id == oid) ∘ f) = (fun o : Order => o.id == oid) := by
    funext o
    simp [Function.comp, hid]
  rw [hpred]

/-- A found order carries the id it was looked up by. -/
theorem findOrder_some_id {db : DB} {oid : Nat} {o : Order}
    (h : findOrder db oid = some o) : o.id = oid := by
  have := List.find?_some h
  simpa using this

theorem findOrder_setOrderStatus (db : DB) (oid : Nat) (ns : OrderStatus) (oid2 : Nat) :
    findOrder (setOrderStatus db oid ns) oid2 =
      (findOrder db oid2).map (fun o => if o.id == oid then { o with status := ns } else o) := by
  unfold setOrderStatus
  exact findOrder_congr_map db _ (fun o => by by_cases h : o.id == oid <;> simp [h]) oid2

/-- Changing one order's status preserves positivity of all stored item
quantities (items are untouched). -/
theorem ordersPos_setOrderStatus {db : DB} {oid : Nat} {ns : OrderStatus}
    (h : ordersPos db) : ordersPos (setOrderStatus db oid ns) := by
  intro o ho it hit
  unfold setOrderStatus at ho
  simp only [List.mem_map] at ho
  obtain ⟨o2, ho2, rfl⟩ := ho
  by_cases hc : o2.id == oid
  · simp only [hc, if_true] at hit
    exact h o2 ho2 it hit
  · simp only [hc, Bool.false_eq_true, if_false] at hit
    exact h o2 ho2 it hit

/-- Positivity of quantities transports along equality of the
(product id, quantity) projections. -/
theorem pos_of_itemKey_map_eq :
    ∀ {l₁ l₂ : List OrderItem}, l₁.map itemKey = l₂.map itemKey →
      (∀ it ∈ l₂, 0 < it.quantity) → ∀ it ∈ l₁, 0 < it.quantity := by
  intro l₁
  induction l₁ with
  | nil => intro l₂ h hp it hit; simp at hit
  | cons a as ih =>
    intro l₂ h hp it hit
    cases l₂ with
    | nil => simp at h
    | cons b bs =>
      simp only [List.map_cons, List.cons.injEq] at h
      obtain ⟨hk, hrest⟩ := h
      rcases List.mem_cons.mp hit with rfl | htl
      · have h2 : it.quantity = b.quantity := congrArg Prod.snd hk
        rw [h2]
        exact hp b (List.mem_cons_self _ _)
      · exact ih hrest (fun x hx => hp x (List.mem_cons_of_mem _ hx)) it htl

/-! ### C8: what a successful UpdateOrderStatus does -/

/-- C8 counterexample: the allowed transition pending to paid succeeds and
persists, but the handler responds with c.Status(200) — a 200 response with
an empty body.  No updated order is returned to the caller. -/
theorem updateOrderStatus_returns_no_order_body :
    (UpdateOrderStatus dbOrderPending 1 .paid).2 = ⟨200, none⟩ ∧
    (UpdateOrderStatus dbOrderPending 1 .paid).2.body = none ∧
    findOrder (UpdateOrderStatus dbOrderPending 1 .paid).1 1
      = some ⟨1, 7, .paid, 4, [⟨1, 2, 2⟩]⟩ :=
  ⟨rfl, rfl, rfl⟩

/-- C8 amended: for every existing order and allowed transition,
UpdateOrderStatus persists the new status and responds 200 with an empty
body (it does not return the updated order); it changes nothing else: the
products table is untouched, the order keeps its items and other fields,
and every other order is left in place. -/
theorem updateOrderStatus_success_effects (db : DB) (oid : Nat) (o : Order)
    (ns : OrderStatus) (h : findOrder db oid = some o)
    (hv : isValidStatusTransition o.status ns = true) :
    UpdateOrderStatus db oid ns = (setOrderStatus db oid ns, ⟨200, none⟩) ∧
    (setOrderStatus db oid ns).products = db.products ∧
    findOrder (setOrderStatus db oid ns) oid = some { o with status := ns } ∧
    (∀ o2 ∈ db.orders, o2.id ≠ oid → o2 ∈ (setOrderStatus db oid ns).orders) := by
  refine ⟨?_, rfl, ?_, ?_⟩
  · unfold UpdateOrderStatus
    rw [h]
    dsimp only
    rw [hv]
    rfl
  · rw [findOrder_setOrderStatus, h]
    have hid : (o.id == oid) = true := by simpa using findOrder_some_id h
    simp only [Option.map_some']
    congr 1
    rw [hid]
    rfl
  · intro o2 hmem hne
    unfold setOrderStatus
    simp only [List.mem_map]
    refine ⟨o2, hmem, ?_⟩
    have hc : (o2.id == oid) = false := by simpa using hne
    simp [hc]

/-- Witness for C8 amended: the pending order moves to paid, the response
carries no body, products are unchanged and the order's items survive. -/
theorem updateOrderStatus_success_effects_witness :
    (UpdateOrderStatus dbOrderPending 1 .paid
        = (setOrderStatus dbOrderPending 1 .paid, ⟨200, none⟩)) ∧
    (setOrderStatus dbOrderPending 1 .paid).products = dbOrderPending.products ∧
    findOrder (setOrderStatus dbOrderPending 1 .paid) 1
      = some ⟨1, 7, .paid, 4, [⟨1, 2, 2⟩]⟩ ∧
    (∀ o2 ∈ dbOrderPending.orders, o2.id ≠ 1 →
      o2 ∈ (setOrderStatus dbOrderPending 1 .paid).orders) :=
  updateOrderStatus_success_effects dbOrderPending 1 ⟨1, 7, .pending, 4, [⟨1, 2, 2⟩]⟩
    .paid rfl rfl

/-! ### C4: what restores stock and what does not -/

/-- C4 counterexample: UpdateOrderStatus moves the pending order (which
debited 2 units of product 1) to cancelled — a table edge — yet the
product's stock stays 3 instead of being restored to 3 + 2: an operation
that moves an order to cancelled without restoring what it debited. -/
theorem updateOrderStatus_cancel_does_not_restore_stock :
    UpdateOrderStatus dbOrderPending 1 .cancelled
      = ({ dbOrderPending with orders := [⟨1, 7, .cancelled, 4, [⟨1, 2, 2⟩]⟩] },
         ⟨200, none⟩) ∧
    getStock (UpdateOrderStatus dbOrderPending 1 .cancelled).1 1 = some 3 ∧
    getStock dbOrderPending 1 = some 3 ∧
    (3 : Int) ≠ 3 + 2 :=
  ⟨rfl, rfl, rfl, by decide⟩

/-- C4 amended: only the dedicated CancelOrder operation restores stock.
CancelOrder on an existing order that is neither cancelled nor delivered
succeeds and adds back to every product exactly the summed quantity the
order's items debited for it; consequently stock after create-then-cancel
equals stock before create (UpdateOrderStatus to cancelled, by contrast,
changes only the status — see the counterexample). -/
theorem cancelOrder_restores_exactly :
    (∀ (db : DB) (oid : Nat) (o : Order), findOrder db oid = some o →
      o.status ≠ .cancelled → o.status ≠ .delivered →
      (CancelOrder db oid).2 = ⟨200, none⟩ ∧
      ∀ pid s, getStock db pid = some s →
        getStock (CancelOrder db oid).1 pid = some (s + itemsDebit o.items pid)) ∧
    (∀ (db : DB) (req : OrderRequest) (db1 : DB) (o : Order),
      (∀ o2 ∈ db.orders, o2.id ≠ db.nextOrderId) →
      CreateOrder db req = (db1, ⟨201, some (.orderPayload o)⟩) →
      ∀ pid s, getStock db pid = some s →
        getStock (CancelOrder db1 o.id).1 pid = some s) := by
  have hcancel : ∀ (db : DB) (oid : Nat) (o : Order), findOrder db oid = some o →
      o.status ≠ .cancelled → o.status ≠ .delivered →
      (CancelOrder db oid).2 = ⟨200, none⟩ ∧
      ∀ pid s, getStock db pid = some s →
        getStock (CancelOrder db oid).1 pid = some (s + itemsDebit o.items pid) := by
    intro db oid o h hnc hnd
    unfold CancelOrder
    rw [h]
    dsimp only
    rw [if_neg hnc, if_neg hnd]
    refine ⟨rfl, ?_⟩
    intro pid s hs
    rw [getStock_setOrderStatus]
    exact restoreItems_getStock o.items db pid s hs
  refine ⟨hcancel, ?_⟩
  intro db req db1 o hfresh h pid s hs
  unfold CreateOrder at h
  cases hr : reserveItems db 0 [] req.items with
  | error e =>
    rw [hr] at h
    dsimp only at h
    cases e <;> simp [reserveErrResp] at h
  | ok res =>
    obtain ⟨tx, total, items⟩ := res
    rw [hr] at h
    dsimp only at h
    simp only [Prod.mk.injEq, HttpResp.mk.injEq, Option.some.injEq,
      RespBody.orderPayload.injEq, true_and] at h
    obtain ⟨hdb1, ho⟩ := h
    obtain ⟨suffix, hits, ht, hkeys, hprices, hstock, horders, hnext⟩ :=
      reserveItems_ok_spec _ _ _ _ _ _ _ hr
    rw [List.nil_append] at hits
    subst hits
    subst ho
    subst hdb1
    dsimp only
    set ord : Order := ⟨db.nextOrderId, req.userID, .pending, total, items⟩ with hord
    have hfo : findOrder
        { tx with orders := tx.orders ++ [ord], nextOrderId := tx.nextOrderId + 1 }
        db.nextOrderId = some ord := by
      unfold findOrder
      dsimp only
      rw [List.find?_append]
      have hnone : tx.orders.find? (fun o2 => o2.id == db.nextOrderId) = none := by
        rw [List.find?_eq_none]
        intro x hx
        rw [horders] at hx
        simpa using hfresh x hx
      rw [hnone]
      simp [hord]
    have hs2 : getStock tx pid = some (s - itemsDebit items pid) := hstock pid s hs
    obtain ⟨-, hrestore⟩ := hcancel
      { tx with orders := tx.orders ++ [ord], nextOrderId := tx.nextOrderId + 1 }
      db.nextOrderId ord hfo (by rw [hord]; exact fun hcon => by cases hcon)
      (by rw [hord]; exact fun hcon => by cases hcon)
    have hfin := hrestore pid (s - itemsDebit items pid) hs2
    rw [hfin]
    have hitems : itemsDebit ord.items pid = itemsDebit items pid := by rw [hord]
    rw [hitems]
    congr 1
    omega

/-- Witness for C4 amended: cancelling the pending order restores its debit
of 2, and a concrete create-then-cancel round trip returns stock 3 to
exactly 3. -/
theorem cancelOrder_restores_exactly_witness :
    ((CancelOrder dbOrderPending 1).2 = ⟨200, none⟩ ∧
     ∀ pid s, getStock dbOrderPending pid = some s →
       getStock (CancelOrder dbOrderPending 1).1 pid
         = some (s + itemsDebit ([⟨1, 2, 2⟩] : List OrderItem) pid)) ∧
    getStock (CancelOrder (⟨[⟨1, "Widget", "", 2, "SKU-1", 3⟩],
        [⟨1, 7, .pending, 0 + 2 * ((2 : Int) : Rat), [⟨1, 2, 2⟩]⟩], 2⟩ : DB) 1).1 1
      = some 5 :=
  ⟨cancelOrder_restores_exactly.1 dbOrderPending 1 ⟨1, 7, .pending, 4, [⟨1, 2, 2⟩]⟩
      rfl (by decide) (by decide),
   cancelOrder_restores_exactly.2 dbStock5 ⟨7, .pending, 0, [⟨1, 2, 0⟩]⟩
      ⟨[⟨1, "Widget", "", 2, "SKU-1", 3⟩],
        [⟨1, 7, .pending, 0 + 2 * ((2 : Int) : Rat), [⟨1, 2, 2⟩]⟩], 2⟩
      ⟨1, 7, .pending, 0 + 2 * ((2 : Int) : Rat), [⟨1, 2, 2⟩]⟩
      (by intro o2 h2; simp [dbStock5] at h2) rfl 1 5 rfl⟩

/-! ### C7: committed stock and its sign -/

/-- A store with one product (id 1, price 1, stock 0) and no orders. -/
def dbStock0 : DB := ⟨[⟨1, "Widget", "", 1, "SKU-1", 0⟩], [], 1⟩

/-- C7 counterexample: starting from non-negative committed stock 0, three
committed operations — CreateOrder of quantity -5 (stock becomes 5),
CreateOrder of quantity 5 (stock becomes 0), CancelOrder of the first order
(restores its -5) — end in the committed state stock = -5 < 0. -/
theorem committed_stock_can_go_negative :
    getStock dbStock0 1 = some 0 ∧
    (CancelOrder (CreateOrder (CreateOrder dbStock0
        ⟨7, .pending, 0, [⟨1, -5, 0⟩]⟩).1 ⟨8, .pending, 0, [⟨1, 5, 0⟩]⟩).1 1).2
      = ⟨200, none⟩ ∧
    getStock (CancelOrder (CreateOrder (CreateOrder dbStock0
        ⟨7, .pending, 0, [⟨1, -5, 0⟩]⟩).1 ⟨8, .pending, 0, [⟨1, 5, 0⟩]⟩).1 1).1 1
      = some (-5) := by
  refine ⟨rfl, ?_, ?_⟩ <;> decide

/-- C7 amended: provided every order item carries a strictly positive
quantity (invariant I1 — which CreateOrder does not enforce, see the
counterexample), all three operations preserve non-negativity of every
committed stock and positivity of all stored quantities; the fourth
conjunct is the single reservation step of CreateOrder's loop, showing
stock stays non-negative at every intermediate in-transaction state as
well. -/
theorem stock_nonneg_invariant_preserved :
    (∀ (db : DB) (req : OrderRequest), stocksNonneg db →
      stocksNonneg (CreateOrder db req).1 ∧
      ((∀ it ∈ req.items, 0 < it.quantity) → ordersPos db →
        ordersPos (CreateOrder db req).1)) ∧
    (∀ (db : DB) (oid : Nat) (ns : OrderStatus), stocksNonneg db →
      stocksNonneg (UpdateOrderStatus db oid ns).1 ∧
      (ordersPos db → ordersPos (UpdateOrderStatus db oid ns).1)) ∧
    (∀ (db : DB) (oid : Nat), stocksNonneg db → ordersPos db →
      stocksNonneg (CancelOrder db oid).1 ∧ ordersPos (CancelOrder db oid).1) ∧
    (∀ (tx : DB) (item : OrderItem) (p : Product),
      stocksNonneg tx → findProduct tx item.productID = some p →
      ¬p.stock < item.quantity →
      stocksNonneg (setStock tx item.productID (p.stock - item.quantity))) := by
  refine ⟨?_, ?_, ?_, ?_⟩
  · intro db req hnn
    unfold CreateOrder
    cases hr : reserveItems db 0 [] req.items with
    | error e => exact ⟨hnn, fun _ hp => hp⟩
    | ok res =>
      obtain ⟨tx, total, items⟩ := res
      dsimp only
      obtain ⟨suffix, hits, ht, hkeys, hprices, hstock, horders, hnext⟩ :=
        reserveItems_ok_spec _ _ _ _ _ _ _ hr
      rw [List.nil_append] at hits
      subst hits
      constructor
      · exact reserveItems_ok_stocksNonneg req.items db 0 [] tx total items hr hnn
      · intro hpos hp o2 ho2 it hit
        dsimp only at ho2
        rw [horders] at ho2
        rcases List.mem_append.mp ho2 with hin | hnew
        · exact hp o2 hin it hit
        · rcases List.mem_singleton.mp hnew with rfl
          exact pos_of_itemKey_map_eq hkeys hpos it hit
  · intro db oid ns hnn
    unfold UpdateOrderStatus
    split
    · exact ⟨hnn, fun hp => hp⟩
    · split
      · exact ⟨hnn, fun hp => hp⟩
      · exact ⟨hnn, fun hp => ordersPos_setOrderStatus hp⟩
  · intro db oid hnn hp
    unfold CancelOrder
    split
    · exact ⟨hnn, hp⟩
    · rename_i o hfo
      split
      · exact ⟨hnn, hp⟩
      · split
        · exact ⟨hnn, hp⟩
        · have hmem := List.mem_of_find?_eq_some hfo
          have hposo : ∀ it ∈ o.items, 0 ≤ it.quantity :=
            fun it hit => le_of_lt (hp o hmem it hit)
          constructor
          · exact restoreItems_stocksNonneg o.items db hposo hnn
          · apply ordersPos_setOrderStatus
            intro o2 ho2 it hit
            rw [restoreItems_orders] at ho2
            exact hp o2 ho2 it hit
  · intro tx item p hnn hfp hle
    exact stocksNonneg_setStock hfp hle hnn

/-- Witness for C7 amended, at a concrete positive-quantity request. -/
theorem stock_nonneg_invariant_preserved_witness :
    stocksNonneg (CreateOrder dbStock5 ⟨7, .pending, 0, [⟨1, 2, 0⟩]⟩).1 ∧
    ((∀ it ∈ (⟨7, .pending, 0, [⟨1, 2, 0⟩]⟩ : OrderRequest).items, 0 < it.quantity) →
      ordersPos dbStock5 →
      ordersPos (CreateOrder dbStock5 ⟨7, .pending, 0, [⟨1, 2, 0⟩]⟩).1) :=
  stock_nonneg_invariant_preserved.1 dbStock5 ⟨7, .pending, 0, [⟨1, 2, 0⟩]⟩
    (by unfold stocksNonneg; decide)

/-! ### C9: the reservation race -/

/-- C9: the code's read-then-write reservation admits a joint oversell.
Against committed stock 5, two reservations of 3 each, interleaved as
SELECT-1, SELECT-2, UPDATE-1, UPDATE-2, both read stock 5, both pass the
check, both commit; the sum of committed debits is 6 > 5 (the final row
holds 2, having recorded only the second transaction's debit — a lost
update).  The claimed single atomic conditional update or row-level lock is
absent from the code. -/
theorem concurrent_reservations_oversell :
    runSchedule 3 3 ⟨5, ⟨none, none⟩, ⟨none, none⟩⟩ [true, false, true, false]
      = ⟨2, ⟨some 5, some true⟩, ⟨some 5, some true⟩⟩ ∧
    (3 + 3 : Int) > 5 :=
  ⟨rfl, by decide⟩

end OrderEngine
